import Mathlib

/-!
# management/transport.go

A shallow embedding of the HTTP transport of the management service:
`decodeAddProfileRequest`, `encodeResponse` and `encodeError`, together with
the part of `net/http`, `encoding/json` and go-kit they are written against.

* A Go `error` interface value is a term of `error`; `error.nil` is the nil
  interface, the sentinels are constructors of their own, so that `==` on
  sentinels is equality of terms.
* An `http.ResponseWriter` is the list of calls made on it so far.
  `ResponseWriter.conn` replays such a list with the bookkeeping of
  `net/http`: the header map is copied into the response at the first
  `WriteHeader` of a final status, or at the first `Write` (which implies
  `WriteHeader(200)`); `WriteHeader` panics on a code outside 100..999, an
  informational code is sent as an interim response and commits nothing, and
  `Write` fails with `http.ErrBodyNotAllowed` when the status allows no body.
* A run-time panic (calling a method on a nil interface) is an `Outcome` of
  its own, carrying the calls made before it.
-/

namespace Management

/-! ## Errors -/

/-- Go values of interface type `error`, as far as this file tells them apart.
`errEmptyRequest` (package management), `ErrExists` (package profile) and `EOF`
(package io) are sentinels compared by identity; `other msg` is any other
error value that is not a go-kit envelope, with the text its `Error()`
returns; `kithttpError Domain Err` is the struct `kithttp.Error` of go-kit,
whose field `Err` is again an `error` and may be nil. -/
inductive error where
  | nil
  | errEmptyRequest
  | ErrExists
  | EOF
  | other (msg : String)
  | kithttpError (Domain : String) (Err : error)
deriving DecidableEq

/-- What the file uses but does not declare: the texts of the two sentinels
(`errors.New(...)` in other files of the repository) and the rendering of a Go
string as a JSON string literal done by `encoding/json`. -/
structure Env where
  errEmptyRequestText : String
  ErrExistsText : String
  quote : String → String

/-- The text `fmt` prints for an error operand under `%s`: the result of its
`Error()` method, and `%!s(<nil>)` for a nil interface. `kithttp.Error.Error()`
is `fmt.Sprintf("%s: %s", e.Domain, e.Err)`. -/
def error.format (env : Env) : error → String
  | .nil => "%!s(<nil>)"
  | .errEmptyRequest => env.errEmptyRequestText
  | .ErrExists => env.ErrExistsText
  | .EOF => "EOF"
  | .other msg => msg
  | .kithttpError Domain Err => Domain ++ ": " ++ Err.format env

/-- The method call `err.Error()`: `none` is the nil-pointer panic of a method
call on a nil interface value. -/
def error.Error (env : Env) : error → Option String
  | .nil => none
  | e => some (e.format env)

/-! ## net/http: the response writer -/

/-- The calls of `http.ResponseWriter` the handlers make:
`w.Header().Set(key, value)`, `w.WriteHeader(code)` and `w.Write(p)`. -/
inductive Call where
  | HeaderSet (key value : String)
  | WriteHeader (code : Int)
  | Write (p : String)
deriving DecidableEq

/-- A response writer is the sequence of calls made on it, oldest first. -/
abbrev ResponseWriter := List Call

/-- An `http.Header` restricted to single values: key and value pairs. -/
abbrev Header := List (String × String)

/-- `Header.Set`: replaces whatever the key held. -/
def Header.Set (h : Header) (key value : String) : Header :=
  (key, value) :: h.filter (fun kv => kv.1 != key)

/-- `Header.Get`, with `none` for a key that is absent. -/
def Header.Get (h : Header) (key : String) : Option String :=
  (h.find? (fun kv => kv.1 == key)).map (fun kv => kv.2)

/-- `http.ErrBodyNotAllowed`, which `Write` returns when the status of the
response allows no body. -/
def ErrBodyNotAllowed : error :=
  .other "http: request method or response status code does not allow body"

/-- `checkWriteHeaderCode`: `WriteHeader` accepts a code of three digits and
panics on any other. -/
def validCode (code : Int) : Bool :=
  decide (100 ≤ code ∧ code ≤ 999)

/-- The codes `WriteHeader` sends as an interim response: 1xx other than
101 Switching Protocols. -/
def informational (code : Int) : Bool :=
  decide (100 ≤ code ∧ code ≤ 199 ∧ code ≠ 101)

/-- `bodyAllowedForStatus`: no body with 1xx, 204 and 304. -/
def bodyAllowedForStatus (status : Int) : Bool :=
  decide (¬ (100 ≤ status ∧ status ≤ 199) ∧ status ≠ 204 ∧ status ≠ 304)

/-- The state `net/http` keeps for one response: the header map the handler
edits, whether the header was written, and what was committed to the
connection: the status, the copy of the header map taken at that moment, the
body bytes, and the interim responses sent before the header. -/
structure Conn where
  header : Header
  wroteHeader : Bool
  status : Int
  sentHeader : Header
  body : String
  interim : List Int

/-- The response before the handler touched it. -/
def Conn.fresh : Conn :=
  { header := [], wroteHeader := false, status := 0, sentHeader := [], body := "",
    interim := [] }

/-- Whether `response.WriteHeader` panics: the header is not written yet and
the code is not one `checkWriteHeaderCode` accepts. -/
def Conn.WriteHeaderPanics (c : Conn) (code : Int) : Bool :=
  !c.wroteHeader && !validCode code

/-- `response.WriteHeader`: a call after the header was written is ignored; a
code outside 100..999 panics and commits nothing; an informational code is
sent at once and leaves the header unwritten; the first final code commits
the status and a copy of the header map. -/
def Conn.WriteHeader (c : Conn) (code : Int) : Conn :=
  if c.wroteHeader then c
  else if !validCode code then c
  else if informational code then { c with interim := c.interim ++ [code] }
  else { c with wroteHeader := true, status := code, sentHeader := c.header }

/-- `response.Write`: does `WriteHeader(http.StatusOK)` when no header was
written yet, then appends to the body, or returns `http.ErrBodyNotAllowed`
and sends nothing when the status allows no body. -/
def Conn.Write (c : Conn) (p : String) : Conn × error :=
  let c := c.WriteHeader 200
  if bodyAllowedForStatus c.status then ({ c with body := c.body ++ p }, .nil)
  else (c, ErrBodyNotAllowed)

/-- What the server does when the handler returns without having written the
header: `WriteHeader(http.StatusOK)`. -/
def Conn.finish (c : Conn) : Conn :=
  c.WriteHeader 200

/-- One call of the handler on the response. -/
def Conn.step (c : Conn) : Call → Conn
  | .HeaderSet key value => { c with header := c.header.Set key value }
  | .WriteHeader code => c.WriteHeader code
  | .Write p => (c.Write p).1

/-- The response a sequence of calls leaves behind. -/
def ResponseWriter.conn (w : ResponseWriter) : Conn :=
  w.foldl Conn.step Conn.fresh

/-- How a function that uses the writer ends: it returns a value, or it
panics; either way the calls made so far stay made. -/
inductive Outcome (α : Type) where
  | returned (w : ResponseWriter) (value : α)
  | panicked (w : ResponseWriter)

/-- The writer as the function left it. -/
def Outcome.writer {α : Type} : Outcome α → ResponseWriter
  | .returned w _ => w
  | .panicked w => w

/-! ## encoding/json -/

/-- `json.Marshal` of a `map[string]interface{}` whose values are strings:
keys in the given order, no spaces. -/
def marshalStringMap (env : Env) (m : List (String × String)) : String :=
  "\x7b" ++ ",".intercalate (m.map fun kv => env.quote kv.1 ++ ":" ++ env.quote kv.2) ++ "\x7d"

/-- `json.NewEncoder(w).Encode(v)`, given what `json.Marshal(v)` yields: a
marshalling error is returned with nothing written, otherwise the encoding and
a newline are passed to one `Write`, whose error is returned. -/
def Encode (w : ResponseWriter) (marshalled : Except error String) : Outcome error :=
  match marshalled with
  | .error e => .returned w e
  | .ok b => .returned (w ++ [.Write (b ++ "\n")]) (w.conn.Write (b ++ "\n")).2

/-! ## Requests -/

/-- Modelled from the spec: the struct `addProfileRequest` is declared in
another file of the package; the decoder reads its field `PayloadIdentifier`,
"a profile-identifier string for profile creation". -/
structure addProfileRequest where
  PayloadIdentifier : String
deriving DecidableEq

/-- What `err := json.NewDecoder(r.Body).Decode(&request)` leaves behind for a
given body: the variable `request`, zero-valued before the call, as the
decoder filled it, and the error it returned. -/
structure Decoded where
  request : addProfileRequest
  err : error

/-- Lines 58 to 68. The first component is the `interface{}` result: `none` is
nil, `some request` the struct. -/
def decodeAddProfileRequest (d : Decoded) : Option addProfileRequest × error :=
  if d.err = .EOF then
    (none, .errEmptyRequest)
  else if d.request.PayloadIdentifier = "" then
    (none, .errEmptyRequest)
  else
    (some d.request, d.err)

/-! ## Responses -/

/-- `http.StatusBadRequest`. -/
def StatusBadRequest : Int := 400

/-- `http.StatusConflict`. -/
def StatusConflict : Int := 409

/-- `http.StatusInternalServerError`. -/
def StatusInternalServerError : Int := 500

/-- A response value as `encodeResponse` sees it. `errorer` is `some e` when
the value implements `errorer` and `error()` returns `e` (possibly nil);
`statuser` is `some s` when it implements `statuser` and `status()` returns
`s`; `listEncoder` is `some f` when it implements `listEncoder`, `f w` being
the calls `encodeList(w)` makes on a writer that already saw `w`, and its
result; `marshalled` is what `json.Marshal` yields for the value. -/
structure Response where
  errorer : Option error
  statuser : Option Int
  listEncoder : Option (ResponseWriter → List Call × error)
  marshalled : Except error String

/-- Lines 106 to 123. -/
def encodeError (env : Env) (err : error) (w : ResponseWriter) : Outcome Unit :=
  let err := match err with
    | .kithttpError _ Err => Err
    | e => e
  let w := match err with
    | .errEmptyRequest => w ++ [.WriteHeader StatusBadRequest]
    | .ErrExists => w ++ [.WriteHeader StatusConflict]
    | _ => w ++ [.WriteHeader StatusInternalServerError]
  let w := w ++ [.HeaderSet "Content-Type" "application/json; charset=utf-8"]
  match err.Error env with
  | none => .panicked w
  | some msg =>
    match Encode w (.ok (marshalStringMap env [("error", msg)])) with
    | .returned w _ => .returned w ()
    | .panicked w => .panicked w

/-- Lines 85 to 90, the last step of `encodeResponse`: the value's own
`encodeList`, or the generic encoder. -/
def encodeBody (w : ResponseWriter) (response : Response) : Outcome error :=
  match response.listEncoder with
  | some encodeList =>
    let r := encodeList w
    .returned (w ++ r.1) r.2
  | none => Encode w response.marshalled

/-- Lines 74 to 91. The guard `ok && e.error() != nil` holds exactly when
`errorer` is `some e` with `e` not nil. `w.WriteHeader(e.status())` panics, and
the function with it, when the writer rejects the code. -/
def encodeResponse (env : Env) (w : ResponseWriter) (response : Response) : Outcome error :=
  match response.errorer.filter (fun e => e != .nil) with
  | some e =>
    match encodeError env e w with
    | .returned w _ => .returned w .nil
    | .panicked w => .panicked w
  | none =>
    let w := w ++ [.HeaderSet "Content-Type" "application/json; charset=utf-8"]
    match response.statuser with
    | some status =>
      if w.conn.WriteHeaderPanics status then .panicked (w ++ [.WriteHeader status])
      else encodeBody (w ++ [.WriteHeader status]) response
    | none => encodeBody w response

/-! ## Names used in the statements -/

/-- The error once the transport envelope is removed: `e.Err` for a
`kithttp.Error`, the error itself otherwise. -/
def unwrapped : error → error
  | .kithttpError _ Err => Err
  | e => e

/-- The header every response is meant to carry. -/
def jsonContentType : Call :=
  .HeaderSet "Content-Type" "application/json; charset=utf-8"

/-- The status the `switch` of `encodeError` selects for an unwrapped error. -/
def statusOf : error → Int
  | .errEmptyRequest => StatusBadRequest
  | .ErrExists => StatusConflict
  | _ => StatusInternalServerError

/-- The calls `encodeResponse` itself makes on the normal path before the body:
the header, then the status of a status-declaring value. -/
def preamble (response : Response) : List Call :=
  match response.statuser with
  | some status => [jsonContentType, .WriteHeader status]
  | none => [jsonContentType]

/-- Whether `w.WriteHeader(e.status())` at line 82 panics: the value declares
a status, the header is not written yet and the writer rejects the code. -/
def statusPanics (w : ResponseWriter) (response : Response) : Bool :=
  match response.statuser with
  | some status => (w ++ [jsonContentType]).conn.WriteHeaderPanics status
  | none => false

/-- The calls of the last step of the normal path on a writer that saw `w`:
those of the value's own `encodeList`, or the one `Write` of the generic
encoder (none when marshalling fails). -/
def bodyCalls (response : Response) (w : ResponseWriter) : List Call :=
  match response.listEncoder with
  | some encodeList => (encodeList w).1
  | none =>
    match response.marshalled with
    | .ok b => [.Write (b ++ "\n")]
    | .error _ => []

/-- One hexadecimal digit, lower case. -/
def hexDigit (n : Nat) : Char :=
  "0123456789abcdef".data.getD n '0'

/-- The escaping `encoding/json` applies to one character of a string with
HTML escaping on, the default of an `Encoder`. The statements below hold for
every `Env.quote`; this one instantiates it in the examples. -/
def escapeChar (c : Char) : List Char :=
  let bs := Char.ofNat 92
  if c = Char.ofNat 34 ∨ c = bs then [bs, c]
  else if c = Char.ofNat 10 then [bs, 'n']
  else if c = Char.ofNat 13 then [bs, 'r']
  else if c = Char.ofNat 9 then [bs, 't']
  else if c.toNat < 32 ∨ c = '<' ∨ c = '>' ∨ c = '&' then
    [bs, 'u', '0', '0', hexDigit (c.toNat / 16), hexDigit (c.toNat % 16)]
  else if c.toNat = 0x2028 then [bs, 'u', '2', '0', '2', '8']
  else if c.toNat = 0x2029 then [bs, 'u', '2', '0', '2', '9']
  else [c]

/-- A Go string as a JSON string literal. -/
def quoteString (s : String) : String :=
  String.mk (Char.ofNat 34 :: (s.data.flatMap escapeChar ++ [Char.ofNat 34]))

/-- Modelled from the spec: the sentinel texts are declared in other files; the
spec shows the body of an empty request as `"error":"empty request"` and leaves
the text of the conflict open. Used to evaluate the definitions on examples. -/
def exampleEnv : Env :=
  { errEmptyRequestText := "empty request"
    ErrExistsText := "profile already exists"
    quote := quoteString }

/-! ## Example values -/

/-- A response of the add-profile route: no error, status 201, one object. -/
def exampleCreated : Response :=
  { errorer := some .nil, statuser := some 201, listEncoder := none,
    marshalled := .ok "\x7b\"payload_identifier\":\"com.example.profile\"\x7d" }

/-- The response of scenario 4 of the spec: no error, no status of its own, and
an `encodeList` that writes the empty array. -/
def exampleList : Response :=
  { errorer := some .nil, statuser := none,
    listEncoder := some fun _ => ([.Write "[]\n"], .nil),
    marshalled := .ok "\x7b\x7d" }

/-- A response that carries `profile.ErrExists` and is also status-declaring
and collection-shaped. -/
def exampleConflict : Response :=
  { errorer := some .ErrExists, statuser := some 201,
    listEncoder := some fun _ => ([.Write "[]\n"], .nil),
    marshalled := .ok "\x7b\x7d" }

/-- A response that declares status 0, which `WriteHeader` rejects. -/
def exampleInvalidStatus : Response :=
  { errorer := none, statuser := some 0, listEncoder := none, marshalled := .ok "\x7b\x7d" }

/-- A response that declares the informational status 103. -/
def exampleEarlyHints : Response :=
  { errorer := none, statuser := some 103, listEncoder := none, marshalled := .ok "\x7b\x7d" }

/-- A response that declares status 204, which allows no body. -/
def exampleNoContent : Response :=
  { errorer := none, statuser := some 204, listEncoder := none, marshalled := .ok "\x7b\x7d" }

/-- A response whose value `json.Marshal` rejects, such as a struct with a
channel in an exported field. -/
def exampleUnsupported : Response :=
  { errorer := none, statuser := none, listEncoder := none,
    marshalled := .error (.other "json: unsupported type: chan int") }

/-! ## Lemmas -/

/-- What `encodeError` does, in one equation: the status, then the header, then
either the body or the panic of `err.Error()` on a nil error. -/
theorem encodeError_eq (env : Env) (e : error) (w : ResponseWriter) :
    encodeError env e w =
      match (unwrapped e).Error env with
      | none => .panicked (w ++ [.WriteHeader (statusOf (unwrapped e)), jsonContentType])
      | some msg =>
        .returned (w ++ [.WriteHeader (statusOf (unwrapped e)), jsonContentType,
          .Write (marshalStringMap env [("error", msg)] ++ "\n")]) () := by
  cases e with
  | kithttpError Domain Err =>
    cases Err <;> simp [encodeError, unwrapped, error.Error, Encode, statusOf, jsonContentType]
  | _ => simp [encodeError, unwrapped, error.Error, Encode, statusOf, jsonContentType]

/-- The status of an unwrapped error is one of the three of the table. -/
theorem statusOf_cases (e : error) :
    (e = .errEmptyRequest → statusOf e = 400) ∧
    (e = .ErrExists → statusOf e = 409) ∧
    (e ≠ .errEmptyRequest → e ≠ .ErrExists → statusOf e = 500) := by
  cases e <;> simp [statusOf, StatusBadRequest, StatusConflict, StatusInternalServerError]

/-- The three statuses of the table are final codes that allow a body. -/
theorem statusOf_final (e : error) :
    validCode (statusOf e) = true ∧ informational (statusOf e) = false ∧
      bodyAllowedForStatus (statusOf e) = true := by
  cases e <;>
    simp [statusOf, StatusBadRequest, StatusConflict, StatusInternalServerError, validCode,
      informational, bodyAllowedForStatus]

/-- Replaying a longer sequence of calls continues from the shorter one. -/
theorem conn_append (w calls : List Call) :
    ResponseWriter.conn (w ++ calls) = calls.foldl Conn.step (ResponseWriter.conn w) := by
  simp [ResponseWriter.conn, List.foldl_append]

/-- Once the header is written, one more call changes neither the status nor
the headers that were sent. -/
theorem step_committed (call : Call) (c : Conn) (h : c.wroteHeader = true) :
    (c.step call).wroteHeader = true ∧ (c.step call).status = c.status ∧
      (c.step call).sentHeader = c.sentHeader := by
  cases call with
  | HeaderSet key value => simp [Conn.step, h]
  | WriteHeader code => simp [Conn.step, Conn.WriteHeader, h]
  | Write p =>
    simp only [Conn.step, Conn.Write, Conn.WriteHeader, h, if_true]
    split <;> simp [h]

/-- Once the header is written, later calls change neither the status nor the
headers that were sent. -/
theorem conn_committed (calls : List Call) (c : Conn) (h : c.wroteHeader = true) :
    (calls.foldl Conn.step c).wroteHeader = true ∧
    (calls.foldl Conn.step c).status = c.status ∧
    (calls.foldl Conn.step c).sentHeader = c.sentHeader := by
  induction calls generalizing c with
  | nil => exact ⟨h, rfl, rfl⟩
  | cons call rest ih =>
    have hs := step_committed call c h
    obtain ⟨h1, h2, h3⟩ := ih (c.step call) hs.1
    exact ⟨h1, h2.trans hs.2.1, h3.trans hs.2.2⟩

/-- The response after `encodeError` on a fresh writer: the status committed
with an empty header map, and the body, when one was written. -/
theorem conn_encodeError (code : Int) (hv : validCode code = true)
    (hi : informational code = false) (hb : bodyAllowedForStatus code = true) :
    ResponseWriter.conn [.WriteHeader code, jsonContentType] =
      { header := [("Content-Type", "application/json; charset=utf-8")], wroteHeader := true,
        status := code, sentHeader := [], body := "", interim := [] } ∧
    ∀ p, ResponseWriter.conn [.WriteHeader code, jsonContentType, .Write p] =
      { header := [("Content-Type", "application/json; charset=utf-8")], wroteHeader := true,
        status := code, sentHeader := [], body := "" ++ p, interim := [] } := by
  constructor
  · simp [ResponseWriter.conn, Conn.step, Conn.WriteHeader, Conn.fresh, jsonContentType, hv, hi,
      Header.Set]
  · intro p
    simp [ResponseWriter.conn, Conn.step, Conn.WriteHeader, Conn.Write, Conn.fresh,
      jsonContentType, hv, hi, hb, Header.Set]


/-- The guard of `encodeResponse` holds for a value that carries a non-nil
error, and `encodeError` runs in place of everything else. -/
theorem encodeResponse_failed (env : Env) (w : ResponseWriter) (response : Response)
    (e : error) (he : response.errorer = some e) (hne : e ≠ .nil) :
    encodeResponse env w response =
      match encodeError env e w with
      | .returned w _ => .returned w .nil
      | .panicked w => .panicked w := by
  have hfilter : response.errorer.filter (fun e => e != .nil) = some e := by
    simp [he, Option.filter, hne]
  unfold encodeResponse
  rw [hfilter]

/-- The guard of `encodeResponse` fails for a value that carries no non-nil
error, and the normal path runs: the header, the status, which may panic, and
the body. -/
theorem encodeResponse_normal (env : Env) (w : ResponseWriter) (response : Response)
    (hok : ∀ e, response.errorer = some e → e = .nil) :
    encodeResponse env w response =
      if statusPanics w response then .panicked (w ++ preamble response)
      else
        match response.listEncoder with
        | some encodeList =>
          .returned (w ++ preamble response ++ (encodeList (w ++ preamble response)).1)
            (encodeList (w ++ preamble response)).2
        | none => Encode (w ++ preamble response) response.marshalled := by
  have hfilter : response.errorer.filter (fun e => e != .nil) = none := by
    cases he : response.errorer with
    | none => rfl
    | some e => simp [Option.filter, hok e he]
  unfold encodeResponse
  rw [hfilter]
  cases hs : response.statuser <;> cases hl : response.listEncoder <;>
    simp [preamble, statusPanics, encodeBody, jsonContentType, hs, hl]

/-- A status of three digits does not make `WriteHeader` panic. -/
theorem statusPanics_valid (w : ResponseWriter) (response : Response)
    (hcode : ∀ s, response.statuser = some s → 100 ≤ s ∧ s ≤ 999) :
    statusPanics w response = false := by
  unfold statusPanics
  cases hs : response.statuser with
  | none => rfl
  | some s => simp [Conn.WriteHeaderPanics, validCode, hcode s hs]

/-- The calls of the normal path when the status does not panic: preamble,
then body. -/
theorem encodeResponse_normal_writer (env : Env) (w : ResponseWriter) (response : Response)
    (hok : ∀ e, response.errorer = some e → e = .nil)
    (hp : statusPanics w response = false) :
    (encodeResponse env w response).writer =
      w ++ preamble response ++ bodyCalls response (w ++ preamble response) := by
  rw [encodeResponse_normal env w response hok, hp]
  unfold bodyCalls
  cases response.listEncoder with
  | some encodeList => simp [Outcome.writer]
  | none => cases response.marshalled <;> simp [Encode, Outcome.writer]

/-- The response after the header and a final status, from a fresh writer. -/
theorem conn_after_status (s : Int) (hv : validCode s = true) (hi : informational s = false) :
    ResponseWriter.conn [jsonContentType, .WriteHeader s] =
      { header := [("Content-Type", "application/json; charset=utf-8")], wroteHeader := true,
        status := s, sentHeader := [("Content-Type", "application/json; charset=utf-8")],
        body := "", interim := [] } := by
  simp [ResponseWriter.conn, jsonContentType, Conn.step, Conn.WriteHeader, Conn.fresh,
    Header.Set, hv, hi]

/-- The response after the header alone, from a fresh writer: nothing is
committed yet. -/
theorem conn_after_header :
    ResponseWriter.conn [jsonContentType] =
      { header := [("Content-Type", "application/json; charset=utf-8")], wroteHeader := false,
        status := 0, sentHeader := [], body := "", interim := [] } := by
  simp [ResponseWriter.conn, jsonContentType, Conn.step, Conn.fresh, Header.Set]

/-- A call other than `WriteHeader` keeps a response whose status, if written,
is 200 in that state. -/
theorem step_default_status (call : Call) (c : Conn)
    (hno : ∀ n, call ≠ Call.WriteHeader n) (hc : c.wroteHeader = true → c.status = 200) :
    (c.step call).wroteHeader = true → (c.step call).status = 200 := by
  cases call with
  | HeaderSet key value => simpa [Conn.step] using hc
  | WriteHeader code => exact absurd rfl (hno code)
  | Write p =>
    cases hw : c.wroteHeader with
    | true =>
      simp only [Conn.step, Conn.Write, Conn.WriteHeader, hw, if_true]
      split <;> simp [hc hw]
    | false =>
      simp only [Conn.step, Conn.Write, Conn.WriteHeader, hw]
      simp [validCode, informational, bodyAllowedForStatus]

/-- When no call is a `WriteHeader`, the response is sent with status 200, at
the first `Write` or when the handler returns. -/
theorem conn_default_status (calls : List Call) (c : Conn)
    (hno : ∀ call ∈ calls, ∀ n, call ≠ Call.WriteHeader n)
    (hc : c.wroteHeader = true → c.status = 200) :
    (calls.foldl Conn.step c).finish.wroteHeader = true ∧
    (calls.foldl Conn.step c).finish.status = 200 := by
  induction calls generalizing c with
  | nil =>
    cases hw : c.wroteHeader with
    | true => simp [Conn.finish, Conn.WriteHeader, hw, hc hw]
    | false => simp [Conn.finish, Conn.WriteHeader, hw, validCode, informational]
  | cons call rest ih =>
    exact ih (c.step call) (fun x hx => hno x (List.mem_cons_of_mem _ hx))
      (step_default_status call c (hno call (List.mem_cons_self _ _)) hc)

/-! ## The add-profile decoder -/

/-- C2: when the decoder reports end of stream (an empty body), and when the
body parses without error but leaves the payload identifier blank,
`decodeAddProfileRequest` returns no request value together with
`errEmptyRequest`, the same pair in both cases. -/
theorem decodeAddProfileRequest_empty (d : Decoded)
    (h : d.err = .EOF ∨ (d.err = .nil ∧ d.request.PayloadIdentifier = "")) :
    decodeAddProfileRequest d = (none, .errEmptyRequest) := by
  unfold decodeAddProfileRequest
  rcases h with h | ⟨_, h⟩
  · simp [h]
  · simp [h]

/-- The empty body (the decoder returns `io.EOF`, the request stays zero) and
the body `"payload_identifier":""` inside braces (no error, blank identifier)
both give nil and `errEmptyRequest`. -/
theorem decodeAddProfileRequest_empty_witness :
    decodeAddProfileRequest ⟨⟨""⟩, .EOF⟩ = (none, .errEmptyRequest) ∧
    decodeAddProfileRequest ⟨⟨""⟩, .nil⟩ = (none, .errEmptyRequest) :=
  ⟨decodeAddProfileRequest_empty ⟨⟨""⟩, .EOF⟩ (Or.inl rfl),
   decodeAddProfileRequest_empty ⟨⟨""⟩, .nil⟩ (Or.inr ⟨rfl, rfl⟩)⟩

/-- C3, as stated, fails: a body cut off after `"payload_identifier":` makes
the decoder return `io.ErrUnexpectedEOF` ("unexpected EOF", not `io.EOF`) with
the request untouched; the blank-identifier guard then replaces the parse error
by `errEmptyRequest`, and `encodeError`, handed go-kit's decode envelope of it,
writes 400 and not 500. -/
theorem decodeAddProfileRequest_parse_error_replaced :
    (decodeAddProfileRequest ⟨⟨""⟩, .other "unexpected EOF"⟩).2 ≠ .other "unexpected EOF" ∧
    decodeAddProfileRequest ⟨⟨""⟩, .other "unexpected EOF"⟩ = (none, .errEmptyRequest) ∧
    (encodeError exampleEnv
      (.kithttpError "Decode" (decodeAddProfileRequest ⟨⟨""⟩, .other "unexpected EOF"⟩).2)
      []).writer.conn.status = 400 := by
  refine ⟨by decide, by decide, by decide⟩

/-- C3, amended: when decoding fails with an error other than end of stream
and the decoder left a non-empty payload identifier in the request,
`decodeAddProfileRequest` returns that same error unchanged (and `encodeError`,
handed go-kit's envelope of it, writes 500 unless the error is one of the two
sentinels); when the identifier is blank it returns `errEmptyRequest`
instead. -/
theorem decodeAddProfileRequest_parse_error (d : Decoded)
    (hnil : d.err ≠ .nil) (heof : d.err ≠ .EOF) :
    (d.request.PayloadIdentifier ≠ "" →
      decodeAddProfileRequest d = (some d.request, d.err) ∧
      (d.err ≠ .errEmptyRequest → d.err ≠ .ErrExists → ∀ (env : Env) (Domain : String),
        (encodeError env (.kithttpError Domain (decodeAddProfileRequest d).2) []).writer.conn.status
          = 500)) ∧
    (d.request.PayloadIdentifier = "" →
      decodeAddProfileRequest d = (none, .errEmptyRequest)) := by
  constructor
  · intro hid
    have hres : decodeAddProfileRequest d = (some d.request, d.err) := by
      simp [decodeAddProfileRequest, heof, hid]
    refine ⟨hres, ?_⟩
    intro h1 h2 env Domain
    have hst : statusOf d.err = 500 := (statusOf_cases d.err).2.2 h1 h2
    have hE : d.err.Error env = some (d.err.format env) := by
      cases hd : d.err with
      | nil => exact absurd hd hnil
      | _ => rfl
    obtain ⟨hv, hi, hb⟩ := statusOf_final d.err
    simp only [hres, encodeError_eq, unwrapped, hE, Outcome.writer, List.nil_append]
    rw [(conn_encodeError _ hv hi hb).2]
    exact hst
  · intro hid
    simp [decodeAddProfileRequest, hid]

/-- A body with the key twice, first a string and then a number: the decoder
keeps "com.example.wifi", skips the number and reports the type error; the
error comes back unchanged and go-kit's envelope of it is answered with 500. -/
theorem decodeAddProfileRequest_parse_error_witness :
    decodeAddProfileRequest
        ⟨⟨"com.example.wifi"⟩, .other "json: cannot unmarshal number into Go value of type string"⟩
      = (some ⟨"com.example.wifi"⟩,
          .other "json: cannot unmarshal number into Go value of type string") ∧
    (encodeError exampleEnv
      (.kithttpError "Decode" (decodeAddProfileRequest
        ⟨⟨"com.example.wifi"⟩,
          .other "json: cannot unmarshal number into Go value of type string"⟩).2)
      []).writer.conn.status = 500 :=
  have h := (decodeAddProfileRequest_parse_error
    ⟨⟨"com.example.wifi"⟩, .other "json: cannot unmarshal number into Go value of type string"⟩
    (by decide) (by decide)).1 (by decide)
  ⟨h.1, h.2 (by decide) (by decide) exampleEnv "Decode"⟩

/-- C6: when the body decodes without error and the decoder stored a non-empty
string `s` as the payload identifier, `decodeAddProfileRequest` succeeds with a
nil error and returns the request, whose `PayloadIdentifier` is `s`. -/
theorem decodeAddProfileRequest_identifier (d : Decoded) (s : String)
    (herr : d.err = .nil) (hid : d.request.PayloadIdentifier = s) (hs : s ≠ "") :
    ∃ request, decodeAddProfileRequest d = (some request, .nil) ∧
      request.PayloadIdentifier = s := by
  refine ⟨d.request, ?_, hid⟩
  have hne : d.request.PayloadIdentifier ≠ "" := by rw [hid]; exact hs
  simp [decodeAddProfileRequest, herr, hne]

/-- The body of scenario 1 of the spec, identifier "com.example.profile". -/
theorem decodeAddProfileRequest_identifier_witness :
    ∃ request, decodeAddProfileRequest ⟨⟨"com.example.profile"⟩, .nil⟩ = (some request, .nil) ∧
      request.PayloadIdentifier = "com.example.profile" :=
  decodeAddProfileRequest_identifier ⟨⟨"com.example.profile"⟩, .nil⟩ "com.example.profile"
    rfl rfl (by decide)

/-- C7, as stated, fails: for a body with the key twice, first a string and
then a number, the decoder fills the identifier and reports a type error, and
`decodeAddProfileRequest` returns the populated request together with that
error. -/
theorem decodeAddProfileRequest_request_with_error :
    (decodeAddProfileRequest
        ⟨⟨"com.example.wifi"⟩, .other "json: cannot unmarshal number into Go value of type string"⟩).2
      ≠ .nil ∧
    (decodeAddProfileRequest
        ⟨⟨"com.example.wifi"⟩, .other "json: cannot unmarshal number into Go value of type string"⟩).1
      = some ⟨"com.example.wifi"⟩ := by
  refine ⟨by decide, by decide⟩

/-- C7, amended: a nil error comes with a request whose payload identifier is
not empty; a non-nil error comes with no request value, except when the decoder
failed with an error other than end of stream after storing a non-empty
identifier: then, and always then, the populated request is returned together
with that error. End of stream or a blank identifier always give nil and
`errEmptyRequest`. -/
theorem decodeAddProfileRequest_result (d : Decoded) :
    ((decodeAddProfileRequest d).2 = .nil →
      ∃ request, (decodeAddProfileRequest d).1 = some request ∧
        request.PayloadIdentifier ≠ "") ∧
    ((decodeAddProfileRequest d).2 ≠ .nil →
      (decodeAddProfileRequest d).1 = none ∨
      (d.err ≠ .EOF ∧ d.err ≠ .nil ∧ d.request.PayloadIdentifier ≠ "" ∧
        decodeAddProfileRequest d = (some d.request, d.err))) ∧
    (d.err ≠ .EOF → d.err ≠ .nil → d.request.PayloadIdentifier ≠ "" →
      decodeAddProfileRequest d = (some d.request, d.err) ∧
      (decodeAddProfileRequest d).1 ≠ none ∧ (decodeAddProfileRequest d).2 ≠ .nil) ∧
    (d.err = .EOF ∨ d.request.PayloadIdentifier = "" →
      decodeAddProfileRequest d = (none, .errEmptyRequest)) := by
  unfold decodeAddProfileRequest
  by_cases heof : d.err = .EOF
  · simp [heof]
  · by_cases hid : d.request.PayloadIdentifier = ""
    · simp [heof, hid]
    · simp [heof, hid]

/-- The body with the key twice, first the string "com.example.wifi" and then
a number: the decoder reports the type error with the identifier stored, and
the populated request comes back together with that error. -/
theorem decodeAddProfileRequest_result_witness :
    decodeAddProfileRequest
        ⟨⟨"com.example.wifi"⟩, .other "json: cannot unmarshal number into Go value of type string"⟩
      = (some ⟨"com.example.wifi"⟩,
          .other "json: cannot unmarshal number into Go value of type string") :=
  ((decodeAddProfileRequest_result
    ⟨⟨"com.example.wifi"⟩,
      .other "json: cannot unmarshal number into Go value of type string"⟩).2.2.1
    (by decide) (by decide) (by decide)).1

/-! ## The error encoder -/

/-- C1: with `unwrapped e` the error after the transport envelope is removed,
`encodeError` makes exactly one `WriteHeader` call, the first call it makes,
and its code is 400 for `errEmptyRequest`, 409 for `profile.ErrExists` and 500
for every other unwrapped error; on a fresh writer this is the status sent. -/
theorem encodeError_status (env : Env) (e : error) (w : ResponseWriter) :
    ∃ code tail,
      (encodeError env e w).writer = w ++ Call.WriteHeader code :: tail ∧
      (∀ c ∈ tail, ∀ n, c ≠ Call.WriteHeader n) ∧
      (unwrapped e = .errEmptyRequest → code = 400) ∧
      (unwrapped e = .ErrExists → code = 409) ∧
      (unwrapped e ≠ .errEmptyRequest → unwrapped e ≠ .ErrExists → code = 500) ∧
      (encodeError env e []).writer.conn.wroteHeader = true ∧
      (encodeError env e []).writer.conn.status = code := by
  obtain ⟨h1, h2, h3⟩ := statusOf_cases (unwrapped e)
  obtain ⟨hv, hi, hb⟩ := statusOf_final (unwrapped e)
  obtain ⟨hc1, hc2⟩ := conn_encodeError _ hv hi hb
  simp only [encodeError_eq]
  cases (unwrapped e).Error env with
  | none =>
    refine ⟨statusOf (unwrapped e), [jsonContentType], ?_, ?_, h1, h2, h3, ?_, ?_⟩
    · simp [Outcome.writer]
    · simp [jsonContentType]
    · simp only [Outcome.writer, List.nil_append]
      rw [hc1]
    · simp only [Outcome.writer, List.nil_append]
      rw [hc1]
  | some msg =>
    refine ⟨statusOf (unwrapped e),
      [jsonContentType, .Write (marshalStringMap env [("error", msg)] ++ "\n")],
      ?_, ?_, h1, h2, h3, ?_, ?_⟩
    · simp [Outcome.writer]
    · simp [jsonContentType]
    · simp only [Outcome.writer, List.nil_append]
      rw [hc2]
    · simp only [Outcome.writer, List.nil_append]
      rw [hc2]

/-- C4 at its failing input: `encodeError` for `errEmptyRequest` on a fresh
writer calls `WriteHeader(400)` before it sets the header, so the header map
sent with the response is the empty one and carries no `Content-Type`. The same
holds for every error: the first call is always `WriteHeader`. -/
theorem encodeError_content_type_not_sent :
    (encodeError exampleEnv .errEmptyRequest []).writer =
      [.WriteHeader 400, .HeaderSet "Content-Type" "application/json; charset=utf-8",
        .Write "\x7b\"error\":\"empty request\"\x7d\n"] ∧
    (encodeError exampleEnv .errEmptyRequest []).writer.conn.wroteHeader = true ∧
    (encodeError exampleEnv .errEmptyRequest []).writer.conn.sentHeader.Get "Content-Type"
      = none ∧
    (∀ (env : Env) (e : error),
      (encodeError env e []).writer.conn.wroteHeader = true ∧
      (encodeError env e []).writer.conn.sentHeader = []) := by
  refine ⟨by rfl, by rfl, by rfl, ?_⟩
  intro env e
  obtain ⟨hv, hi, hb⟩ := statusOf_final (unwrapped e)
  obtain ⟨hc1, hc2⟩ := conn_encodeError _ hv hi hb
  rw [encodeError_eq]
  cases (unwrapped e).Error env with
  | none =>
    simp only [Outcome.writer, List.nil_append]
    rw [hc1]
    exact ⟨rfl, rfl⟩
  | some msg =>
    simp only [Outcome.writer, List.nil_append]
    rw [hc2]
    exact ⟨rfl, rfl⟩

/-- C8, as stated, fails: for the envelope `kithttp.Error` whose `Err` is nil,
`encodeError` writes status 500 and sets the header, then panics on
`err.Error()`; no body is written. -/
theorem encodeError_nil_envelope_no_body :
    encodeError exampleEnv (.kithttpError "Decode" .nil) [] =
      .panicked [.WriteHeader 500, .HeaderSet "Content-Type" "application/json; charset=utf-8"] ∧
    (∀ p, Call.Write p ∉ (encodeError exampleEnv (.kithttpError "Decode" .nil) []).writer) ∧
    (encodeError exampleEnv (.kithttpError "Decode" .nil) []).writer.conn.body = "" := by
  refine ⟨by rfl, ?_, by rfl⟩
  intro p
  simp [encodeError_eq, unwrapped, error.Error, Outcome.writer, jsonContentType]

/-- C8, amended: for every error whose unwrapped error is not nil,
`encodeError` returns after exactly one `Write`, of the JSON encoding (and the
newline of the encoder) of the object with the one key "error" whose value is
the text `Error()` gives for the unwrapped error; the body is never empty. -/
theorem encodeError_body (env : Env) (e : error) (w : ResponseWriter)
    (h : unwrapped e ≠ .nil) :
    ∃ msg,
      (unwrapped e).Error env = some msg ∧
      encodeError env e w =
        .returned (w ++ [.WriteHeader (statusOf (unwrapped e)), jsonContentType,
          .Write ("\x7b" ++ (env.quote "error" ++ ":" ++ env.quote msg) ++ "\x7d" ++ "\n")]) () ∧
      (encodeError env e []).writer.conn.body =
        "\x7b" ++ (env.quote "error" ++ ":" ++ env.quote msg) ++ "\x7d" ++ "\n" ∧
      (encodeError env e []).writer.conn.body ≠ "" := by
  have hmsg : (unwrapped e).Error env = some ((unwrapped e).format env) := by
    cases hu : unwrapped e with
    | nil => exact absurd hu h
    | _ => rfl
  have hbody : (encodeError env e []).writer.conn.body =
      "\x7b" ++ (env.quote "error" ++ ":" ++ env.quote ((unwrapped e).format env)) ++ "\x7d"
        ++ "\n" := by
    obtain ⟨hv, hi, hb⟩ := statusOf_final (unwrapped e)
    simp only [encodeError_eq, hmsg, Outcome.writer, List.nil_append]
    rw [(conn_encodeError _ hv hi hb).2]
    simp [marshalStringMap, String.intercalate, String.intercalate.go]
  refine ⟨(unwrapped e).format env, hmsg, ?_, hbody, ?_⟩
  · simp [encodeError_eq, hmsg, marshalStringMap, String.intercalate, String.intercalate.go]
  · rw [hbody]
    intro hempty
    have hlen := congrArg String.length hempty
    simp only [String.length_append] at hlen
    have hnl : "\n".length = 1 := by decide
    have h0 : "".length = 0 := by decide
    omega

/-- The empty-request sentinel inside go-kit's decode envelope: the body of
scenario 2 of the spec. -/
theorem encodeError_body_witness :
    (encodeError exampleEnv (.kithttpError "Decode" .errEmptyRequest) []).writer.conn.body =
      "\x7b\"error\":\"empty request\"\x7d\n" ∧
    (encodeError exampleEnv (.kithttpError "Decode" .errEmptyRequest) []).writer.conn.body ≠ "" := by
  obtain ⟨msg, hmsg, -, hbody, hne⟩ :=
    encodeError_body exampleEnv (.kithttpError "Decode" .errEmptyRequest) [] (by decide)
  have hm : "empty request" = msg := Option.some.inj hmsg
  subst hm
  exact ⟨hbody.trans (by rfl), hne⟩

/-! ## The response encoder -/

/-- C5, as stated, fails: a response whose embedded error is the envelope
`kithttp.Error` with a nil `Err` takes the error path, `encodeError` panics
after the status and the header, and `encodeResponse` does not return nil: it
does not return. -/
theorem encodeResponse_nil_envelope_panics :
    encodeResponse exampleEnv []
        { errorer := some (.kithttpError "Do" .nil), statuser := none, listEncoder := none,
          marshalled := .ok "\x7b\x7d" } =
      .panicked [.WriteHeader 500, .HeaderSet "Content-Type" "application/json; charset=utf-8"] ∧
    ¬ ∃ w, encodeResponse exampleEnv []
        { errorer := some (.kithttpError "Do" .nil), statuser := none, listEncoder := none,
          marshalled := .ok "\x7b\x7d" } = .returned w .nil := by
  have h : encodeResponse exampleEnv []
        { errorer := some (.kithttpError "Do" .nil), statuser := none, listEncoder := none,
          marshalled := .ok "\x7b\x7d" } =
      .panicked [.WriteHeader 500, .HeaderSet "Content-Type" "application/json; charset=utf-8"] :=
    rfl
  refine ⟨h, ?_⟩
  rintro ⟨w, hw⟩
  rw [h] at hw
  cases hw

/-- C5, amended: `encodeResponse` takes the error path exactly when the value
is error-carrying with a non-nil embedded error. On the error path the writer
receives exactly the calls of `encodeError` for that error, whatever else the
value implements, and `encodeResponse` returns nil whenever the embedded
error, once its transport envelope is removed, is not nil. On the normal path
the calls are the header, the status of a status-declaring value, which ends
the function in a panic when the writer rejects the code, and the body calls,
none of them made by `encodeError`. -/
theorem encodeResponse_error_path (env : Env) (w : ResponseWriter) (response : Response) :
    (∀ e, response.errorer = some e → e ≠ .nil →
      (encodeResponse env w response).writer = (encodeError env e w).writer ∧
      (unwrapped e ≠ .nil →
        encodeResponse env w response = .returned (encodeError env e w).writer .nil)) ∧
    ((∀ e, response.errorer = some e → e = .nil) →
      encodeResponse env w response =
        if statusPanics w response then .panicked (w ++ preamble response)
        else
          match response.listEncoder with
          | some encodeList =>
            .returned (w ++ preamble response ++ (encodeList (w ++ preamble response)).1)
              (encodeList (w ++ preamble response)).2
          | none => Encode (w ++ preamble response) response.marshalled) := by
  refine ⟨?_, encodeResponse_normal env w response⟩
  intro e he hne
  rw [encodeResponse_failed env w response e he hne, encodeError_eq]
  refine ⟨?_, ?_⟩
  · cases (unwrapped e).Error env <;> rfl
  · intro hu
    cases hE : unwrapped e with
    | nil => exact absurd hE hu
    | _ => rfl

/-- A response that carries `profile.ErrExists` and also declares status 201
and an `encodeList`: only the calls of `encodeError` reach the writer, with
status 409, and nil is returned. -/
theorem encodeResponse_error_path_witness :
    encodeResponse exampleEnv [] exampleConflict =
      .returned [.WriteHeader 409, .HeaderSet "Content-Type" "application/json; charset=utf-8",
        .Write "\x7b\"error\":\"profile already exists\"\x7d\n"] .nil :=
  ((encodeResponse_error_path exampleEnv [] exampleConflict).1 .ErrExists rfl
    (by decide)).2 (by decide)

/-- C9, as stated, fails: for a value that declares status 0, `WriteHeader`
panics, `encodeResponse` ends there and no status is written; for a value that
declares the informational status 103, the status sent with the body is 200. -/
theorem encodeResponse_status_rejected :
    encodeResponse exampleEnv [] exampleInvalidStatus =
      .panicked [.HeaderSet "Content-Type" "application/json; charset=utf-8", .WriteHeader 0] ∧
    (encodeResponse exampleEnv [] exampleInvalidStatus).writer.conn.wroteHeader = false ∧
    (encodeResponse exampleEnv [] exampleEarlyHints).writer =
      [.HeaderSet "Content-Type" "application/json; charset=utf-8", .WriteHeader 103,
        .Write "\x7b\x7d\n"] ∧
    (encodeResponse exampleEnv [] exampleEarlyHints).writer.conn.status = 200 := by
  refine ⟨by rfl, by rfl, by rfl, by rfl⟩

/-- C9, amended: for a value that carries no non-nil error and declares a
status that `WriteHeader` accepts as final (100 to 999, and 101 if below 200),
the status is written by exactly one `WriteHeader` call of `encodeResponse`,
right after the `Content-Type` header is set and before every body call, so
that on a fresh writer it is the status sent, with the header; for a value that
is not status-declaring `encodeResponse` makes no `WriteHeader` call of its
own, and on a fresh writer, when the body calls make none either, the response
is sent with status 200. -/
theorem encodeResponse_status (env : Env) (w : ResponseWriter) (response : Response)
    (hok : ∀ e, response.errorer = some e → e = .nil) :
    (∀ s, response.statuser = some s → 100 ≤ s → s ≤ 999 → (s ≤ 199 → s = 101) →
      ∃ body,
        (encodeResponse env w response).writer = w ++ [jsonContentType, .WriteHeader s] ++ body ∧
        (∀ encodeList, response.listEncoder = some encodeList →
          body = (encodeList (w ++ [jsonContentType, .WriteHeader s])).1) ∧
        (response.listEncoder = none → ∀ c ∈ body, ∃ p, c = Call.Write p) ∧
        (w = [] →
          (encodeResponse env w response).writer.conn.wroteHeader = true ∧
          (encodeResponse env w response).writer.conn.status = s ∧
          (encodeResponse env w response).writer.conn.sentHeader.Get "Content-Type" =
            some "application/json; charset=utf-8")) ∧
    (response.statuser = none →
      ∃ body,
        (encodeResponse env w response).writer = w ++ [jsonContentType] ++ body ∧
        (∀ encodeList, response.listEncoder = some encodeList →
          body = (encodeList (w ++ [jsonContentType])).1) ∧
        (response.listEncoder = none → ∀ c ∈ body, ∃ p, c = Call.Write p) ∧
        (w = [] → (∀ c ∈ body, ∀ n, c ≠ Call.WriteHeader n) →
          (encodeResponse env w response).writer.conn.finish.wroteHeader = true ∧
          (encodeResponse env w response).writer.conn.finish.status = 200)) := by
  have hgeneric : ∀ w', response.listEncoder = none →
      ∀ c ∈ bodyCalls response w', ∃ p, c = Call.Write p := by
    intro w' hl c hc
    unfold bodyCalls at hc
    rw [hl] at hc
    cases hm : response.marshalled with
    | ok b =>
      rw [hm] at hc
      exact ⟨_, List.mem_singleton.mp hc⟩
    | error err =>
      rw [hm] at hc
      cases hc
  constructor
  · intro s hs h100 h999 hfinal
    have hv : validCode s = true := by simp [validCode, h100, h999]
    have hi : informational s = false := by
      unfold informational
      rw [decide_eq_false_iff_not]
      rintro ⟨-, h, hne⟩
      exact hne (hfinal h)
    have hp : statusPanics w response = false :=
      statusPanics_valid w response (fun t ht => by
        rw [hs] at ht
        cases ht
        exact ⟨h100, h999⟩)
    have hw := encodeResponse_normal_writer env w response hok hp
    have hpre : preamble response = [jsonContentType, .WriteHeader s] := by simp [preamble, hs]
    rw [hpre] at hw
    refine ⟨bodyCalls response (w ++ [jsonContentType, .WriteHeader s]), hw, ?_, hgeneric _, ?_⟩
    · intro encodeList hl
      simp [bodyCalls, hl]
    · intro hnil
      subst hnil
      simp only [List.nil_append] at hw
      rw [hw, conn_append, conn_after_status s hv hi]
      obtain ⟨h1, h2, h3⟩ := conn_committed
        (bodyCalls response [jsonContentType, .WriteHeader s])
        { header := [("Content-Type", "application/json; charset=utf-8")], wroteHeader := true,
          status := s, sentHeader := [("Content-Type", "application/json; charset=utf-8")],
          body := "", interim := [] } rfl
      refine ⟨h1, h2, ?_⟩
      rw [h3]
      rfl
  · intro hs
    have hp : statusPanics w response = false := by simp [statusPanics, hs]
    have hw := encodeResponse_normal_writer env w response hok hp
    have hpre : preamble response = [jsonContentType] := by simp [preamble, hs]
    rw [hpre] at hw
    refine ⟨bodyCalls response (w ++ [jsonContentType]), hw, ?_, hgeneric _, ?_⟩
    · intro encodeList hl
      simp [bodyCalls, hl]
    · intro hnil hno
      subst hnil
      simp only [List.nil_append] at hw hno
      rw [hw, conn_append, conn_after_header]
      exact conn_default_status _ _ hno (fun h => by simp at h)

/-- The created-profile response sends its own status 201 with the header; the
empty list response, which declares no status, is sent with 200. -/
theorem encodeResponse_status_witness :
    ((encodeResponse exampleEnv [] exampleCreated).writer.conn.wroteHeader = true ∧
      (encodeResponse exampleEnv [] exampleCreated).writer.conn.status = 201 ∧
      (encodeResponse exampleEnv [] exampleCreated).writer.conn.sentHeader.Get "Content-Type" =
        some "application/json; charset=utf-8") ∧
    ((encodeResponse exampleEnv [] exampleList).writer.conn.finish.wroteHeader = true ∧
      (encodeResponse exampleEnv [] exampleList).writer.conn.finish.status = 200) := by
  constructor
  · obtain ⟨body, -, -, -, h⟩ :=
      (encodeResponse_status exampleEnv [] exampleCreated (by intro e h; cases h; rfl)).1 201 rfl
        (by decide) (by decide) (by decide)
    exact h rfl
  · obtain ⟨body, -, hlist, -, h⟩ :=
      (encodeResponse_status exampleEnv [] exampleList (by intro e h; cases h; rfl)).2 rfl
    refine h rfl ?_
    rw [hlist _ rfl]
    intro c hc n hcn
    subst hcn
    simp at hc

/-- C10, as stated, fails: for a value that is not collection-shaped and that
`json.Marshal` rejects, `encodeResponse` sets the header, writes no body and
returns the marshalling error; for a value that declares status 204 the
encoding is passed to `Write`, which sends nothing and fails, and
`encodeResponse` returns `http.ErrBodyNotAllowed`. -/
theorem encodeResponse_body_not_written :
    encodeResponse exampleEnv [] exampleUnsupported =
      .returned [.HeaderSet "Content-Type" "application/json; charset=utf-8"]
        (.other "json: unsupported type: chan int") ∧
    (encodeResponse exampleEnv [] exampleUnsupported).writer.conn.finish.body = "" ∧
    encodeResponse exampleEnv [] exampleNoContent =
      .returned [.HeaderSet "Content-Type" "application/json; charset=utf-8", .WriteHeader 204,
        .Write "\x7b\x7d\n"] ErrBodyNotAllowed ∧
    (encodeResponse exampleEnv [] exampleNoContent).writer.conn.body = "" := by
  refine ⟨by rfl, by rfl, by rfl, by rfl⟩

/-- C10, amended: for a value that carries no non-nil error and whose status,
if it declares one, is a code of three digits, with `pre` the header and status
calls made before the body: a collection-shaped value has exactly the calls of
its own `encodeList` appended, run on the writer after `pre`, and the result of
`encodeList` returned, the generic encoding not being written; a value that is
not collection-shaped has its generic JSON encoding (with the newline of the
encoder) passed to one `Write`, whose result is returned: on a fresh writer
that is nil with the encoding as the body when no status is declared or the
declared one is 200 or more and neither 204 nor 304, and
`http.ErrBodyNotAllowed` with an empty body when it is 101, 204 or 304; when
marshalling fails nothing is written and the error is returned. -/
theorem encodeResponse_body (env : Env) (w : ResponseWriter) (response : Response)
    (hok : ∀ e, response.errorer = some e → e = .nil)
    (hcode : ∀ s, response.statuser = some s → 100 ≤ s ∧ s ≤ 999) :
    ∃ pre,
      (∀ s, response.statuser = some s → pre = [jsonContentType, .WriteHeader s]) ∧
      (response.statuser = none → pre = [jsonContentType]) ∧
      (∀ encodeList, response.listEncoder = some encodeList →
        encodeResponse env w response =
          .returned (w ++ pre ++ (encodeList (w ++ pre)).1) (encodeList (w ++ pre)).2) ∧
      (response.listEncoder = none →
        (∀ b, response.marshalled = .ok b →
          encodeResponse env w response =
            .returned (w ++ pre ++ [.Write (b ++ "\n")])
              ((ResponseWriter.conn (w ++ pre)).Write (b ++ "\n")).2 ∧
          (w = [] → (∀ s, response.statuser = some s → 200 ≤ s ∧ s ≠ 204 ∧ s ≠ 304) →
            encodeResponse env w response = .returned (pre ++ [.Write (b ++ "\n")]) .nil ∧
            (encodeResponse env w response).writer.conn.body = b ++ "\n") ∧
          (w = [] → ∀ s, response.statuser = some s → s = 101 ∨ s = 204 ∨ s = 304 →
            encodeResponse env w response =
              .returned (pre ++ [.Write (b ++ "\n")]) ErrBodyNotAllowed ∧
            (encodeResponse env w response).writer.conn.body = "")) ∧
        (∀ err, response.marshalled = .error err →
          encodeResponse env w response = .returned (w ++ pre) err)) := by
  have hn := encodeResponse_normal env w response hok
  rw [statusPanics_valid w response hcode] at hn
  simp only [Bool.false_eq_true, if_false] at hn
  refine ⟨preamble response, ?_, ?_, ?_, ?_⟩
  · intro s hs
    simp [preamble, hs]
  · intro hs
    simp [preamble, hs]
  · intro encodeList hl
    rw [hn, hl]
  · intro hl
    rw [hl] at hn
    constructor
    · intro b hb
      rw [hb] at hn
      have heq : encodeResponse env w response =
          .returned (w ++ preamble response ++ [.Write (b ++ "\n")])
            ((ResponseWriter.conn (w ++ preamble response)).Write (b ++ "\n")).2 := by
        rw [hn]; rfl
      refine ⟨heq, ?_, ?_⟩
      · intro hnil hallowed
        subst hnil
        rw [heq]
        cases hs : response.statuser with
        | none =>
          simp [preamble, hs, Outcome.writer, ResponseWriter.conn, Conn.step, Conn.Write,
            Conn.WriteHeader, Conn.fresh, jsonContentType, validCode, informational,
            bodyAllowedForStatus]
        | some s =>
          obtain ⟨h200, h204, h304⟩ := hallowed s hs
          obtain ⟨-, h999⟩ := hcode s hs
          have hv : validCode s = true := by
            simp only [validCode, decide_eq_true_eq]; omega
          have hi : informational s = false := by
            simp only [informational, decide_eq_false_iff_not]; omega
          have hb : bodyAllowedForStatus s = true := by
            simp only [bodyAllowedForStatus, decide_eq_true_eq]; omega
          simp [preamble, hs, Outcome.writer, ResponseWriter.conn, Conn.step, Conn.Write,
            Conn.WriteHeader, Conn.fresh, jsonContentType, hv, hi, hb]
      · intro hnil s hs hbodyless
        subst hnil
        rw [heq]
        have hv : validCode s = true := by
          simp only [validCode, decide_eq_true_eq]; omega
        have hi : informational s = false := by
          simp only [informational, decide_eq_false_iff_not]; omega
        have hb : bodyAllowedForStatus s = false := by
          simp only [bodyAllowedForStatus, decide_eq_false_iff_not]; omega
        simp [preamble, hs, Outcome.writer, ResponseWriter.conn, Conn.step, Conn.Write,
          Conn.WriteHeader, Conn.fresh, jsonContentType, hv, hi, hb]
    · intro err herr
      rw [hn, herr]
      rfl

/-- The empty list response: the header, then the one `Write` of its own
`encodeList`, whose nil result is returned; the generic encoding of the value
is not written. -/
theorem encodeResponse_body_witness :
    encodeResponse exampleEnv [] exampleList =
      .returned [.HeaderSet "Content-Type" "application/json; charset=utf-8", .Write "[]\n"]
        .nil := by
  obtain ⟨pre, -, hpre, hlist, -⟩ :=
    encodeResponse_body exampleEnv [] exampleList (by intro e h; cases h; rfl)
      (by intro s h; cases h)
  have h := hlist _ rfl
  rw [hpre rfl] at h
  exact h

end Management
